import Mathlib

/-!
Crusta: address-bar resolution, bookmark storage, download rows, toolbar and manager tab

A shallow embedding of the event handlers of `src/desktop/tab.cpp`,
`src/desktop/downloads.cpp` and `src/crusta/privatetabwindow.cpp`, and of the
storage contract declared in `src/src/lib/app/database.h`.

Handlers are modelled as pure functions that return the list of calls they
make on their collaborators (web view, page, progress bar, ...), in program
order, together with the state they leave behind.  Qt's own functions
(`QUrl::fromUserInput`, `QUrl::toString`, ...) are parameters.
-/

set_option autoImplicit false

namespace Crusta

/-! ## QString operations used by the handlers -/

namespace QString

/-- Scanner behind `QString::replace(before, after)` for a non-empty `before`:
the first argument counts the characters of a match still to be skipped. -/
def replaceAux (before after : List Char) : Nat → List Char → List Char
  | _, [] => []
  | skip + 1, _ :: cs => replaceAux before after skip cs
  | 0, c :: cs =>
    if before.isPrefixOf (c :: cs) then
      after ++ replaceAux before after (before.length - 1) cs
    else
      c :: replaceAux before after 0 cs

/-- Qt's `QString::replace(const QString &before, const QString &after)`: every
occurrence of `before`, found left to right without overlap, becomes `after`;
an empty `before` matches before every character and at the end. -/
def replace (s before after : String) : String :=
  if before.data = [] then
    ⟨after.data ++ s.data.flatMap (fun c => c :: after.data)⟩
  else
    ⟨replaceAux before.data after.data 0 s.data⟩

/-- Scanner behind `QString::split(sep)` for a non-empty `sep`: skip counter,
the part being collected (reversed), and the text still to scan. -/
def splitAux (sep : List Char) : Nat → List Char → List Char → List (List Char)
  | _, cur, [] => [cur.reverse]
  | skip + 1, cur, _ :: cs => splitAux sep skip cur cs
  | 0, cur, c :: cs =>
    if sep.isPrefixOf (c :: cs) then
      cur.reverse :: splitAux sep (sep.length - 1) [] cs
    else
      splitAux sep 0 (c :: cur) cs

/-- Qt's `QString::split(const QString &sep)` with the default `KeepEmptyParts`:
the parts between the occurrences of `sep`, empty parts included; an empty
`sep` yields an empty part, every character, and an empty part. -/
def split (s sep : String) : List String :=
  if sep.data = [] then
    "" :: s.data.map (fun c => String.mk [c]) ++ [""]
  else
    (splitAux sep.data 0 [] s.data).map String.mk

end QString

/-! ## Address-bar submission (`WebTab::setup_toolbar`, `returnPressed`) -/

/-- The Qt URL functions and enum values the handler uses.  They belong to Qt,
not to this repository, so the handler is parametric in them. -/
structure QUrlApi (QUrl : Type) where
  /-- Qt's `QUrl::fromUserInput(const QString &)`. -/
  fromUserInput : String → QUrl
  /-- Qt's `QUrl(const QString &)`, the conversion applied when `load` is given a string. -/
  fromQString : String → QUrl
  /-- Qt's `QUrl::isValid()`. -/
  isValid : QUrl → Bool
  /-- Qt's `QUrl::scheme()`. -/
  scheme : QUrl → String
  /-- Qt's `QUrl::host()`. -/
  host : QUrl → String
  /-- Qt's `QUrl::toString(FormattingOptions)`, options given as their integer value. -/
  toString : QUrl → Nat → String
  /-- Qt's `QUrl::RemoveScheme`. -/
  RemoveScheme : Nat
  /-- Qt's `QUrl::FullyDecoded`. -/
  FullyDecoded : Nat
  /-- Qt's `QUrl::EncodeSpaces`. -/
  EncodeSpaces : Nat

/-- Bitwise complement of a 32-bit flag word (`~x` on `int` flags). -/
def flagsNot (x : Nat) : Nat := 0xFFFFFFFF ^^^ (x % 2 ^ 32)

/-- The options `(QUrl::RemoveScheme | QUrl::FullyDecoded) & ~(QUrl::EncodeSpaces)`. -/
def scriptFormatting {QUrl : Type} (api : QUrlApi QUrl) : Nat :=
  (api.RemoveScheme ||| api.FullyDecoded) &&& flagsNot api.EncodeSpaces

/-- The type `SearchEngine`, of which the handler uses the query template. -/
structure SearchEngine where
  query_url : String
  deriving DecidableEq, Repr

/-- What the handler reads through the global `browser`: the search model's
default engine. -/
structure Browser where
  default_engine : SearchEngine
  deriving DecidableEq, Repr

/-- Calls the `returnPressed` handler makes on its collaborators. -/
inductive Call (QUrl : Type) where
  /-- The call `m_webview->page()->runJavaScript(code)`. -/
  | runJavaScript (code : String)
  /-- The call `browser->search_model()->default_engine()`. -/
  | default_engine
  /-- The call `m_webview->load(url)`. -/
  | load (url : QUrl)
  /-- The call `m_webview->setFocus()`. -/
  | setFocus
  deriving DecidableEq, Repr

/-- The placeholder of a query template. -/
def searchTerms : String := "{searchTerms}"

/-- Lines 75-77 of `tab.cpp`: copy the default engine, substitute the text for
the placeholder in the copy's template, load the result, focus the view.
Returns the browser state, the local copy after the substitution, and the calls. -/
def searchFallthrough {QUrl : Type} (api : QUrlApi QUrl) (browser : Browser) (text : String) :
    Browser × SearchEngine × List (Call QUrl) :=
  let engine : SearchEngine := browser.default_engine
  let engine : SearchEngine := { engine with query_url := QString.replace engine.query_url searchTerms text }
  (browser, engine, [Call.default_engine, Call.load (api.fromQString engine.query_url), Call.setFocus])

/-- The `returnPressed` lambda of `WebTab::setup_toolbar` (lines 61-78), given
the text of the address bar: the browser state afterwards and the calls made. -/
def returnPressed {QUrl : Type} (api : QUrlApi QUrl) (browser : Browser) (text : String) :
    Browser × List (Call QUrl) :=
  let url := api.fromUserInput text
  if api.isValid url then
    if api.scheme url = "javascript" then
      let code := api.toString url (scriptFormatting api)
      (browser, [Call.runJavaScript code])
    else if api.host url = "localhost" ∨ (QString.split (api.host url) ".").length > 1 then
      (browser, [Call.load url])
    else
      let r := searchFallthrough api browser text
      (r.1, r.2.2)
  else
    let r := searchFallthrough api browser text
    (r.1, r.2.2)

/-- The three actions of the address resolution policy. -/
inductive Action where
  | script
  | navigation
  | search
  deriving DecidableEq, Repr

/-- Which action a list of calls amounts to: a script run, a load that did not
consult the search engine, or a load that did. -/
def classify {QUrl : Type} : List (Call QUrl) → Option Action
  | [Call.runJavaScript _] => some Action.script
  | [Call.load _] => some Action.navigation
  | [Call.default_engine, Call.load _, Call.setFocus] => some Action.search
  | _ => none

/-- The address resolution policy as the specification words it (section 4.2,
steps 2 to 4), to be compared with what `returnPressed` does. -/
def policyAction {QUrl : Type} (api : QUrlApi QUrl) (text : String) : Action :=
  let url := api.fromUserInput text
  if api.isValid url then
    if api.scheme url = "javascript" then Action.script
    else if api.host url = "localhost" ∨ (QString.split (api.host url) ".").length > 1 then Action.navigation
    else Action.search
  else Action.search

/-- Successive submissions of the address bar, oldest first: the final browser
state and the calls of each submission. -/
def submitAll {QUrl : Type} (api : QUrlApi QUrl) : Browser → List String → Browser × List (List (Call QUrl))
  | browser, [] => (browser, [])
  | browser, text :: rest =>
    let r := returnPressed api browser text
    let rs := submitAll api r.1 rest
    (rs.1, r.2 :: rs.2)

/-! ### A concrete instance of the Qt interface, for evaluation -/

/-- A parsed URL reduced to the components the handler looks at. -/
structure SampleUrl where
  valid : Bool
  scheme : String
  host : String
  rest : String
  deriving DecidableEq, Repr

/-- What Qt's `QUrl::fromUserInput` yields on a few inputs; anything else is
taken as invalid here. -/
def sampleFromUserInput (text : String) : SampleUrl :=
  if text = "example.com" then ⟨true, "http", "example.com", ""⟩
  else if text = "localhost" then ⟨true, "http", "localhost", ""⟩
  else if text = "intranet" then ⟨true, "http", "intranet", ""⟩
  else if text = "javascript:alert(1)" then ⟨true, "javascript", "", "alert(1)"⟩
  else ⟨false, "", "", ""⟩

/-- An instance of the Qt interface with Qt's enum values. -/
def sampleApi : QUrlApi SampleUrl where
  fromUserInput := sampleFromUserInput
  fromQString := fun s => ⟨true, "", "", s⟩
  isValid := fun u => u.valid
  scheme := fun u => u.scheme
  host := fun u => u.host
  toString := fun u _ => u.rest
  RemoveScheme := 0x1
  FullyDecoded := 0x7F00000
  EncodeSpaces := 0x100000

/-- A default engine for evaluation. -/
def sampleBrowser : Browser := ⟨⟨"https://duckduckgo.com/?q={searchTerms}"⟩⟩

/-- Modelled from the spec: `BookmarkItem` (`bookmarkitem.h` is not among the
sources), a record of address, title and folder. -/
structure BookmarkItem where
  address : String
  title : String
  folder : String
  deriving DecidableEq, Repr, Inhabited

/-- Modelled from the spec: the persisted `bookmarks(address, title, folder)`
table behind `DataBase` (`database.cpp` is not among the sources), as its rows. -/
structure DataBase where
  rows : List BookmarkItem
  deriving DecidableEq, Repr

namespace DataBase

/-- Modelled from the spec: the store after `createTables()` on a fresh
database (`database.cpp` is not among the sources): no rows. -/
def createTables : DataBase := ⟨[]⟩

/-- Modelled from the spec: `DataBase::addBookmark` (`database.cpp` is not among
the sources), a "standard upsert ... by address key": a row with the item's
address is replaced by the item, otherwise the item is inserted. -/
def addBookmark (db : DataBase) (item : BookmarkItem) : DataBase :=
  ⟨db.rows.filter (fun r => r.address ≠ item.address) ++ [item]⟩

/-- Modelled from the spec: `DataBase::removeBookmark` (`database.cpp` is not
among the sources), a delete by address key; a no-op if the address is absent. -/
def removeBookmark (db : DataBase) (address : String) : DataBase :=
  ⟨db.rows.filter (fun r => r.address ≠ address)⟩

/-- Modelled from the spec: `DataBase::updateBookmark` (`database.cpp` is not
among the sources): the row keyed by the item's address gets the item's title
and folder; a missing address is a no-op. -/
def updateBookmark (db : DataBase) (item : BookmarkItem) : DataBase :=
  ⟨db.rows.map (fun r => if r.address = item.address then item else r)⟩

/-- Modelled from the spec: `DataBase::bookmarks(folderName)` (`database.cpp` is
not among the sources): the rows filtered by folder. -/
def bookmarks (db : DataBase) (folderName : String) : List BookmarkItem :=
  db.rows.filter (fun r => r.folder = folderName)

/-- Modelled from the spec: the "lookup keyed on address" behind `isBookmarked`
(`database.cpp` is not among the sources): the rows with that address. -/
def lookup (db : DataBase) (address : String) : List BookmarkItem :=
  db.rows.filter (fun r => r.address = address)

/-- Modelled from the spec: `DataBase::isBookmarked` (`database.cpp` is not among
the sources): the record found by the lookup keyed on address, or the
empty/default record as the "not found" sentinel. -/
def isBookmarked (db : DataBase) (address : String) : BookmarkItem :=
  (db.lookup address).headD default

/-- A mutation of the bookmark table through the `DataBase` interface. -/
inductive Op where
  | add (item : BookmarkItem)
  | remove (address : String)
  | update (item : BookmarkItem)
  deriving DecidableEq, Repr

/-- Applies one mutation. -/
def apply (db : DataBase) : Op → DataBase
  | Op.add item => db.addBookmark item
  | Op.remove address => db.removeBookmark address
  | Op.update item => db.updateBookmark item

/-- The store reached from a fresh database by a sequence of mutations. -/
def run (ops : List Op) : DataBase := ops.foldl apply createTables

/-- The invariant of the data model: no two rows share an address. -/
def AddressUnique (db : DataBase) : Prop := (db.rows.map (fun r => r.address)).Nodup

instance (db : DataBase) : Decidable db.AddressUnique := by
  unfold AddressUnique; infer_instance

end DataBase

/-! ## Download row (`DownloadWidget::handle_download`) -/

/-- Undefined arithmetic a `qint64` computation can run into. -/
inductive ArithFault where
  | divisionByZero
  | overflow
  deriving DecidableEq, Repr

/-- What the `downloadProgress` lambda does, in order: divisions it performs and
the value it passes to `QProgressBar::setValue`. -/
inductive ProgressStep where
  | divide (numerator denominator : Int)
  | setValue (value : Int)
  deriving DecidableEq, Repr

/-- Whether an integer is a `qint64`. -/
def inInt64 (x : Int) : Bool := decide (-(2 : Int) ^ 63 ≤ x) && decide (x < (2 : Int) ^ 63)

/-- Multiplication of two `qint64`: signed overflow is undefined. -/
def mul64 (a b : Int) : Except ArithFault Int :=
  if inInt64 (a * b) then Except.ok (a * b) else Except.error ArithFault.overflow

/-- Division of two `qint64`, truncating toward zero: a zero divisor and the
quotient of the least value by -1 are undefined. -/
def div64 (a b : Int) : Except ArithFault Int :=
  if b = 0 then Except.error ArithFault.divisionByZero
  else if inInt64 (Int.tdiv a b) then Except.ok (Int.tdiv a b)
  else Except.error ArithFault.overflow

/-- Conversion of a `qint64` to the `int` parameter of `setValue`: the value
modulo 2^32, read as a signed 32-bit integer. -/
def toInt32 (x : Int) : Int :=
  if x % 2 ^ 32 < 2 ^ 31 then x % 2 ^ 32 else x % 2 ^ 32 - 2 ^ 32

/-- The `downloadProgress` lambda (lines 42-48 of `downloads.cpp`). -/
def downloadProgress (bytes_received bytes_total : Int) : Except ArithFault (List ProgressStep) :=
  if bytes_total = 0 then
    Except.ok [ProgressStep.setValue (-1)]
  else
    match mul64 bytes_received 100 with
    | Except.error e => Except.error e
    | Except.ok scaled =>
      match div64 scaled bytes_total with
      | Except.error e => Except.error e
      | Except.ok percent =>
        Except.ok [ProgressStep.divide scaled bytes_total, ProgressStep.setValue (toInt32 percent)]

/-- Qt's `QWebEngineDownloadItem::DownloadState`. -/
inductive DownloadState where
  | DownloadRequested
  | DownloadInProgress
  | DownloadCompleted
  | DownloadCancelled
  | DownloadInterrupted
  deriving DecidableEq, Repr

/-- The download handle as the `finished` lambda reads it. -/
structure DownloadItem where
  state : DownloadState
  interruptReasonString : String
  deriving DecidableEq, Repr

/-- The widgets of one download row, by identity. -/
inductive Widget where
  | progress
  | cancel
  | pause
  | label
  deriving DecidableEq, Repr

/-- One download row: the widgets held by its `hbox` layout, in order, the
widgets deleted so far, and the text of the status label once it is created. -/
structure DownloadRow where
  hbox : List Widget
  deleted : List Widget
  label : Option String
  deriving DecidableEq, Repr

/-- The row as `handle_download` builds it (lines 37-65): progress bar, cancel
button and pause button added to `hbox` in this order. -/
def handle_download_row : DownloadRow :=
  { hbox := [Widget.progress, Widget.cancel, Widget.pause], deleted := [], label := none }

/-- Qt's `QLayout::removeWidget`. -/
def DownloadRow.removeWidget (row : DownloadRow) (w : Widget) : DownloadRow :=
  { row with hbox := row.hbox.erase w }

/-- The statement `delete w`. -/
def DownloadRow.delete (row : DownloadRow) (w : Widget) : DownloadRow :=
  { row with deleted := row.deleted ++ [w] }

/-- The call `hbox->addWidget(w)`. -/
def DownloadRow.addWidget (row : DownloadRow) (w : Widget) : DownloadRow :=
  { row with hbox := row.hbox ++ [w] }

/-- The call `label->setText(text)`. -/
def DownloadRow.setLabelText (row : DownloadRow) (text : String) : DownloadRow :=
  { row with label := some text }

/-- The `finished` lambda (lines 67-93 of `downloads.cpp`). -/
def finished (item : DownloadItem) (row : DownloadRow) : DownloadRow :=
  let row := row.removeWidget Widget.progress
  let row := row.removeWidget Widget.cancel
  let row := row.removeWidget Widget.pause
  let row := row.delete Widget.progress
  let row := row.delete Widget.cancel
  let row := row.delete Widget.pause
  let row := { row with label := some "" }
  let row := row.addWidget Widget.label
  match item.state with
  | DownloadState.DownloadCompleted => row.setLabelText "Downloaded."
  | DownloadState.DownloadCancelled => row.setLabelText "Donwload Cancelled."
  | DownloadState.DownloadInterrupted => row.setLabelText item.interruptReasonString
  | _ => row

/-! ## Private tab address bar (`PrivateTabWindow::updateAddrBar`) -/

/-- A C++ exception, whatever its type. -/
structure Failure where
  what : String
  deriving DecidableEq, Repr

/-- The `QLineEdit` behind the address field. -/
structure QLineEdit where
  text : String
  cursorPosition : Nat
  deriving DecidableEq, Repr

/-- The private tab window as `updateAddrBar` sees it: the view's current URL
string, the address field, and which of the calls the function makes raise a
failure (the calls are numbered in program order). -/
structure PrivateTabWindow where
  viewUrl : String
  addr_bar : QLineEdit
  faults : Nat → Option Failure
  calls : Nat

/-- Code running in the window: it may throw, and the window keeps the state
reached when it does. -/
abbrev WindowM := ExceptT Failure (StateM PrivateTabWindow)

/-- One call into the toolkit: it throws if the window says this call fails,
otherwise it has its effect. -/
def toolkitCall {α : Type} (effect : PrivateTabWindow → α × PrivateTabWindow) : WindowM α := do
  let w ← get
  set { w with calls := w.calls + 1 }
  match w.faults w.calls with
  | some e => throw e
  | none =>
    let w ← get
    let r := effect w
    set r.2
    pure r.1

/-- The call `this->addr_bar->initialize()`. -/
def addrBarInitialize : WindowM Unit := toolkitCall (fun w => ((), w))

/-- The call `this->view->returnPrivateView()->url().toString()`. -/
def viewUrlToString : WindowM String := toolkitCall (fun w => (w.viewUrl, w))

/-- Qt's `QLineEdit::setText`: sets the text and moves the cursor to its end. -/
def setText (text : String) : WindowM Unit :=
  toolkitCall (fun w => ((), { w with addr_bar := { text := text, cursorPosition := text.length } }))

/-- Qt's `QLineEdit::setCursorPosition`. -/
def setCursorPosition (pos : Nat) : WindowM Unit :=
  toolkitCall (fun w => ((), { w with addr_bar := { w.addr_bar with cursorPosition := pos } }))

/-- The function `PrivateTabWindow::updateAddrBar` (lines 37-45 of `privatetabwindow.cpp`). -/
def updateAddrBar : WindowM Unit :=
  tryCatch
    (do
      addrBarInitialize
      let url ← viewUrlToString
      setText url
      addrBarInitialize
      setCursorPosition 0)
    (fun _ => pure ())

/-! ## Download row: progress range and pause button -/

/-- The range given to the progress bar by `progress->setRange(0, 100)`
(line 41 of `downloads.cpp`): minimum and maximum. -/
def progressRange : Int × Int := (0, 100)

/-- Qt's pause interface of `QWebEngineDownloadItem`.  It belongs to Qt, so the
pause button's handler is parametric in it. -/
structure DownloadApi (Item : Type) where
  /-- Qt's `QWebEngineDownloadItem::isPaused()`. -/
  isPaused : Item → Bool
  /-- Qt's `QWebEngineDownloadItem::pause()`, as the handle it leaves. -/
  pause : Item → Item
  /-- Qt's `QWebEngineDownloadItem::resume()`, as the handle it leaves. -/
  resume : Item → Item

/-- Calls the pause button's `clicked` lambda makes. -/
inductive PauseCall where
  /-- The call `item->resume()`. -/
  | resume
  /-- The call `item->pause()`. -/
  | pause
  /-- The call `pause->setText(text)`. -/
  | setText (text : String)
  deriving DecidableEq, Repr

/-- What the pause button's lambda captures: the download handle and the
button, of which the text matters. -/
structure PauseButton (Item : Type) where
  item : Item
  text : String

/-- The pause button as `handle_download` creates it (line 55): its text is "Pause". -/
def pauseButtonCreated {Item : Type} (item : Item) : PauseButton Item :=
  { item := item, text := "Pause" }

/-- The pause button's `clicked` lambda (lines 56-64 of `downloads.cpp`): the
state it leaves and the calls it makes. -/
def pauseClicked {Item : Type} (api : DownloadApi Item) (s : PauseButton Item) :
    PauseButton Item × List PauseCall :=
  if api.isPaused s.item then
    let item := api.resume s.item
    ({ item := item, text := "Pause" }, [PauseCall.resume, PauseCall.setText "Pause"])
  else
    let item := api.pause s.item
    ({ item := item, text := "Resume" }, [PauseCall.pause, PauseCall.setText "Resume"])

/-- The state after a number of clicks on the pause button. -/
def pauseClicks {Item : Type} (api : DownloadApi Item) : Nat → PauseButton Item → PauseButton Item
  | 0, s => s
  | n + 1, s => (pauseClicked api (pauseClicks api n s)).1

/-! ## Refresh/stop button (`WebTab::setup_toolbar`) -/

/-- The Qt icon functions the toolbar uses.  They belong to Qt, so the
handlers are parametric in them. -/
structure QIconApi (QIcon : Type) where
  /-- Qt's `QIcon::fromTheme(const QString &)`. -/
  fromTheme : String → QIcon
  /-- Qt's `QIcon::name()`. -/
  name : QIcon → String

/-- The part of the toolbar the load and click handlers touch: whether the
back and forward buttons are enabled, and the refresh button's icon. -/
structure Toolbar (QIcon : Type) where
  back_enabled : Bool
  forward_enabled : Bool
  refresh_icon : QIcon

/-- Calls on the web view made by the refresh button. -/
inductive WebViewCall where
  /-- The call `m_webview->reload()`. -/
  | reload
  /-- The call `m_webview->stop()`. -/
  | stop
  deriving DecidableEq, Repr

/-- What the toolbar reacts to: the view's `loadStarted`, its `loadFinished`
(with what `history()->canGoBack()` and `canGoForward()` answer at that
moment), and a click on the refresh button. -/
inductive ToolbarEvent where
  | loadStarted
  | loadFinished (canGoBack canGoForward : Bool)
  | refreshClicked
  deriving DecidableEq, Repr

/-- The toolbar as `setup_toolbar` builds it (lines 27-38): buttons enabled, the
refresh button carrying the theme icon "view-refresh". -/
def setup_toolbar {QIcon : Type} (api : QIconApi QIcon) : Toolbar QIcon :=
  { back_enabled := true, forward_enabled := true, refresh_icon := api.fromTheme "view-refresh" }

/-- The refresh button's `clicked` lambda (lines 52-59 of `tab.cpp`). -/
def refreshClicked {QIcon : Type} (api : QIconApi QIcon) (tb : Toolbar QIcon) : List WebViewCall :=
  let icon_name := api.name tb.refresh_icon
  if icon_name = "view-refresh" then [WebViewCall.reload] else [WebViewCall.stop]

/-- The `loadStarted` lambda (lines 94-96 of `tab.cpp`). -/
def loadStarted {QIcon : Type} (api : QIconApi QIcon) (tb : Toolbar QIcon) : Toolbar QIcon :=
  { tb with refresh_icon := api.fromTheme "process-stop" }

/-- The `loadFinished` lambda (lines 97-101 of `tab.cpp`). -/
def loadFinished {QIcon : Type} (api : QIconApi QIcon) (canGoBack canGoForward : Bool)
    (tb : Toolbar QIcon) : Toolbar QIcon :=
  let tb := { tb with back_enabled := canGoBack }
  let tb := { tb with forward_enabled := canGoForward }
  { tb with refresh_icon := api.fromTheme "view-refresh" }

/-- One event: the toolbar afterwards and the calls made on the web view. -/
def toolbarStep {QIcon : Type} (api : QIconApi QIcon) (tb : Toolbar QIcon) :
    ToolbarEvent → Toolbar QIcon × List WebViewCall
  | ToolbarEvent.loadStarted => (loadStarted api tb, [])
  | ToolbarEvent.loadFinished canGoBack canGoForward => (loadFinished api canGoBack canGoForward tb, [])
  | ToolbarEvent.refreshClicked => (tb, refreshClicked api tb)

/-- The toolbar after a sequence of events (oldest first) on a fresh toolbar. -/
def toolbarAfter {QIcon : Type} (api : QIconApi QIcon) (events : List ToolbarEvent) : Toolbar QIcon :=
  events.foldl (fun tb ev => (toolbarStep api tb ev).1) (setup_toolbar api)

/-- The calls made on the web view, event by event, along a sequence of events. -/
def toolbarTrace {QIcon : Type} (api : QIconApi QIcon) :
    Toolbar QIcon → List ToolbarEvent → List (List WebViewCall)
  | _, [] => []
  | tb, ev :: rest => (toolbarStep api tb ev).2 :: toolbarTrace api (toolbarStep api tb ev).1 rest

/-- Whether an event is one of the two load events. -/
def ToolbarEvent.isLoadEvent : ToolbarEvent → Bool
  | ToolbarEvent.loadStarted => true
  | ToolbarEvent.loadFinished _ _ => true
  | ToolbarEvent.refreshClicked => false

/-- A load is in progress after a sequence of events (oldest first) when the
most recent load event is `loadStarted`. -/
def loadInProgress (events : List ToolbarEvent) : Bool :=
  decide ((events.filter ToolbarEvent.isLoadEvent).getLast? = some ToolbarEvent.loadStarted)

/-- An icon interface in which an icon is its theme name. -/
def sampleIconApi : QIconApi String where
  fromTheme := fun n => n
  name := fun i => i

/-- A pause interface in which a handle is its paused flag. -/
def sampleDownloadApi : DownloadApi Bool where
  isPaused := fun i => i
  pause := fun _ => true
  resume := fun _ => false

/-! ## Manager tab pages (`ManagerTab`) -/

/-- The pages put on the manager tab's stacked widget: the settings scroll area,
the `HistoryWidget`, the `BookmarkWidget` and the `SearchWidget`. -/
inductive Page where
  | settings
  | history
  | bookmarks
  | search
  deriving DecidableEq, Repr

/-- Signals a tab emits. -/
inductive TabSignal (QIcon : Type) where
  | title_changed (title : String)
  | icon_changed (icon : QIcon)
  deriving DecidableEq, Repr

/-- The manager tab's `m_stacked_widget`: its pages in index order and its
current index (-1 while it has no page). -/
structure ManagerTab where
  pages : List Page
  currentIndex : Int
  deriving DecidableEq, Repr

namespace ManagerTab

/-- Qt's `QStackedWidget::addWidget`: appends the page; the first page added
becomes the current one. -/
def addWidget (t : ManagerTab) (p : Page) : ManagerTab :=
  { pages := t.pages ++ [p], currentIndex := if t.pages = [] then 0 else t.currentIndex }

/-- Qt's `QStackedWidget::setCurrentIndex`: an index without a page changes nothing. -/
def setCurrentIndex (t : ManagerTab) (index : Int) : ManagerTab :=
  if 0 ≤ index ∧ index < t.pages.length then { t with currentIndex := index } else t

/-- Qt's `QStackedWidget::widget(index)`. -/
def widget (t : ManagerTab) (index : Int) : Option Page :=
  if 0 ≤ index then t.pages[index.toNat]? else none

/-- Qt's `QStackedWidget::currentWidget()`. -/
def currentWidget (t : ManagerTab) : Option Page := t.widget t.currentIndex

/-- What `ManagerTab::setup_settings_widget` (lines 174-326) does to the stacked
widget: it adds the settings scroll area (line 325). -/
def setup_settings_widget (t : ManagerTab) : ManagerTab :=
  t.addWidget Page.settings

/-- The function `ManagerTab::setup_stacked_widget` (lines 162-172). -/
def setup_stacked_widget (t : ManagerTab) : ManagerTab :=
  let t := t.addWidget Page.history
  let t := t.addWidget Page.bookmarks
  t.addWidget Page.search

/-- The constructor `ManagerTab::ManagerTab` (lines 328-343): a new stacked
widget, then `setup_settings_widget()`, then `setup_stacked_widget()`. -/
def create : ManagerTab :=
  let t : ManagerTab := { pages := [], currentIndex := -1 }
  let t := t.setup_settings_widget
  t.setup_stacked_widget

/-- The slot `ManagerTab::open_settings` (lines 345-350). -/
def open_settings {QIcon : Type} (api : QIconApi QIcon) (t : ManagerTab) :
    ManagerTab × List (TabSignal QIcon) :=
  (t.setCurrentIndex 0,
    [TabSignal.title_changed "Settings", TabSignal.icon_changed (api.fromTheme "configure")])

/-- The slot `ManagerTab::open_history` (lines 352-357). -/
def open_history {QIcon : Type} (api : QIconApi QIcon) (t : ManagerTab) :
    ManagerTab × List (TabSignal QIcon) :=
  (t.setCurrentIndex 1,
    [TabSignal.title_changed "History", TabSignal.icon_changed (api.fromTheme "appointment-new")])

/-- The slot `ManagerTab::open_bookmarks` (lines 359-364). -/
def open_bookmarks {QIcon : Type} (api : QIconApi QIcon) (t : ManagerTab) :
    ManagerTab × List (TabSignal QIcon) :=
  (t.setCurrentIndex 2,
    [TabSignal.title_changed "Bookmarks", TabSignal.icon_changed (api.fromTheme "bookmark-new")])

/-- The slot `ManagerTab::open_search` (lines 366-371). -/
def open_search {QIcon : Type} (api : QIconApi QIcon) (t : ManagerTab) :
    ManagerTab × List (TabSignal QIcon) :=
  (t.setCurrentIndex 3,
    [TabSignal.title_changed "Search", TabSignal.icon_changed (api.fromTheme "edit-find")])

/-- The four slots, by the page each is named after. -/
def openPage {QIcon : Type} (api : QIconApi QIcon) (t : ManagerTab) :
    Page → ManagerTab × List (TabSignal QIcon)
  | Page.settings => open_settings api t
  | Page.history => open_history api t
  | Page.bookmarks => open_bookmarks api t
  | Page.search => open_search api t

/-- The manager tab after a sequence of slot calls (oldest first) on a new tab. -/
def afterOpening {QIcon : Type} (api : QIconApi QIcon) (opened : List Page) : ManagerTab :=
  opened.foldl (fun t p => (openPage api t p).1) create

end ManagerTab

/-! ## Facts about the QString operations -/

theorem QString.splitAux_dot_length (cur cs : List Char) :
    (QString.splitAux ['.'] 0 cur cs).length = cs.count '.' + 1 := by
  induction cs generalizing cur with
  | nil => simp [QString.splitAux]
  | cons c cs ih =>
    by_cases hc : c = '.'
    · subst hc
      simp [QString.splitAux, List.isPrefixOf, ih]
    · have hne : ¬ ('.' = c) := fun h => hc h.symm
      simp [QString.splitAux, List.isPrefixOf, ih, hne, List.count_cons, hc]

/-- The number of dot-separated labels is the number of dots plus one. -/
theorem QString.split_dot_length (s : String) :
    (QString.split s ".").length = s.data.count '.' + 1 := by
  have h : (".".data = []) = False := by decide
  simp only [QString.split, h, if_false, List.length_map]
  exact QString.splitAux_dot_length [] s.data

/-- More than one label means the text contains a dot. -/
theorem QString.split_dot_length_gt_one (s : String) :
    1 < (QString.split s ".").length ↔ '.' ∈ s.data := by
  rw [QString.split_dot_length]
  constructor
  · intro h
    exact List.count_pos_iff.mp (by omega)
  · intro h
    have := List.count_pos_iff.mpr h
    omega

theorem QString.replaceAux_skip (before after : List Char) (xs post : List Char) :
    QString.replaceAux before after xs.length (xs ++ post) = QString.replaceAux before after 0 post := by
  induction xs with
  | nil => simp
  | cons x xs ih => simp [QString.replaceAux, ih]

theorem QString.replaceAux_not_mem (b : Char) (bs after : List Char) (post : List Char)
    (h : b ∉ post) : QString.replaceAux (b :: bs) after 0 post = post := by
  induction post with
  | nil => simp [QString.replaceAux]
  | cons c cs ih =>
    have hc : ¬ (b = c) := fun e => h (by simp [e])
    have hcs : b ∉ cs := fun e => h (by simp [e])
    simp [QString.replaceAux, List.isPrefixOf, hc, ih hcs]

theorem QString.isPrefixOf_append_self (xs ys : List Char) : xs.isPrefixOf (xs ++ ys) = true := by
  induction xs with
  | nil => simp [List.isPrefixOf]
  | cons x xs ih => simp [List.isPrefixOf, ih]

/-- A template with one placeholder: the text takes the placeholder's place, as it is. -/
theorem QString.replaceAux_single (b : Char) (bs after pre post : List Char)
    (hpre : b ∉ pre) (hpost : b ∉ post) :
    QString.replaceAux (b :: bs) after 0 (pre ++ (b :: bs) ++ post) = pre ++ after ++ post := by
  induction pre with
  | nil =>
    have hp : (b :: bs).isPrefixOf (b :: (bs ++ post)) = true := by
      exact QString.isPrefixOf_append_self (b :: bs) post
    have hs := QString.replaceAux_skip (b :: bs) after bs post
    simp only [List.nil_append, List.cons_append, QString.replaceAux, List.append_eq, hp, if_true,
      List.length_cons, Nat.add_sub_cancel, hs, QString.replaceAux_not_mem b bs after post hpost]
  | cons c cs ih =>
    have hc : ¬ (b = c) := fun e => hpre (by simp [e])
    have hcs : b ∉ cs := fun e => hpre (by simp [e])
    have := ih hcs
    simp only [List.append_assoc, List.cons_append] at this ⊢
    simp [QString.replaceAux, List.isPrefixOf, hc, this]

/-- On a template with a single placeholder, `replace` puts the text, unchanged,
where the placeholder stood. -/
theorem QString.replace_single (pre post text : String)
    (hpre : '{' ∉ pre.data) (hpost : '{' ∉ post.data) :
    QString.replace (pre ++ searchTerms ++ post) searchTerms text = pre ++ text ++ post := by
  have h : (searchTerms.data = []) = False := by decide
  have hd : searchTerms.data = '{' :: "searchTerms\x7d".data := by decide
  simp only [QString.replace, h, if_false]
  apply String.ext
  simp only [String.data_append, hd]
  exact QString.replaceAux_single '{' _ text.data pre.data post.data hpre hpost

/-! ## Address-bar submission: the three branches -/

theorem returnPressed_script {QUrl : Type} (api : QUrlApi QUrl) (browser : Browser) (text : String)
    (hv : api.isValid (api.fromUserInput text) = true)
    (hs : api.scheme (api.fromUserInput text) = "javascript") :
    returnPressed api browser text
      = (browser, [Call.runJavaScript (api.toString (api.fromUserInput text) (scriptFormatting api))]) := by
  simp [returnPressed, hv, hs]

theorem returnPressed_navigation {QUrl : Type} (api : QUrlApi QUrl) (browser : Browser) (text : String)
    (hv : api.isValid (api.fromUserInput text) = true)
    (hs : api.scheme (api.fromUserInput text) ≠ "javascript")
    (hh : api.host (api.fromUserInput text) = "localhost"
      ∨ 1 < (QString.split (api.host (api.fromUserInput text)) ".").length) :
    returnPressed api browser text = (browser, [Call.load (api.fromUserInput text)]) := by
  simp only [returnPressed, hv, hs, if_true, if_false]
  rw [if_pos hh]

theorem returnPressed_search {QUrl : Type} (api : QUrlApi QUrl) (browser : Browser) (text : String)
    (h : api.isValid (api.fromUserInput text) = false
      ∨ (api.scheme (api.fromUserInput text) ≠ "javascript"
        ∧ api.host (api.fromUserInput text) ≠ "localhost"
        ∧ (QString.split (api.host (api.fromUserInput text)) ".").length ≤ 1)) :
    returnPressed api browser text
      = (browser, [Call.default_engine,
          Call.load (api.fromQString (QString.replace browser.default_engine.query_url searchTerms text)),
          Call.setFocus]) := by
  rcases h with hv | ⟨hs, hl, hn⟩
  · simp [returnPressed, hv, searchFallthrough]
  · have hh : ¬ (api.host (api.fromUserInput text) = "localhost"
        ∨ (QString.split (api.host (api.fromUserInput text)) ".").length > 1) := by
      rintro (h1 | h2)
      · exact hl h1
      · omega
    by_cases hv : api.isValid (api.fromUserInput text) = true
    · simp only [returnPressed, hv, hs, if_true, if_false]
      rw [if_neg hh]
      rfl
    · simp [returnPressed, hv, searchFallthrough]

theorem classify_returnPressed {QUrl : Type} (api : QUrlApi QUrl) (browser : Browser) (text : String) :
    classify (returnPressed api browser text).2 = some (policyAction api text) := by
  unfold returnPressed policyAction searchFallthrough
  simp only []
  split_ifs <;> rfl

theorem returnPressed_state {QUrl : Type} (api : QUrlApi QUrl) (browser : Browser) (text : String) :
    (returnPressed api browser text).1 = browser := by
  unfold returnPressed searchFallthrough
  simp only []
  split_ifs <;> rfl

theorem submitAll_state {QUrl : Type} (api : QUrlApi QUrl) (browser : Browser) (texts : List String) :
    (submitAll api browser texts).1 = browser := by
  induction texts generalizing browser with
  | nil => rfl
  | cons t ts ih => simp [submitAll, ih, returnPressed_state]

/-- The handler takes exactly one of its three branches, decided by the parse. -/
theorem returnPressed_cases {QUrl : Type} (api : QUrlApi QUrl) (browser : Browser) (text : String) :
    (api.isValid (api.fromUserInput text) = true
        ∧ api.scheme (api.fromUserInput text) = "javascript"
        ∧ (returnPressed api browser text).2
            = [Call.runJavaScript (api.toString (api.fromUserInput text) (scriptFormatting api))])
    ∨ (api.isValid (api.fromUserInput text) = true
        ∧ api.scheme (api.fromUserInput text) ≠ "javascript"
        ∧ (api.host (api.fromUserInput text) = "localhost"
            ∨ 1 < (QString.split (api.host (api.fromUserInput text)) ".").length)
        ∧ (returnPressed api browser text).2 = [Call.load (api.fromUserInput text)])
    ∨ ((api.isValid (api.fromUserInput text) = false
          ∨ (api.scheme (api.fromUserInput text) ≠ "javascript"
            ∧ api.host (api.fromUserInput text) ≠ "localhost"
            ∧ (QString.split (api.host (api.fromUserInput text)) ".").length ≤ 1))
        ∧ (returnPressed api browser text).2
            = [Call.default_engine,
                Call.load (api.fromQString (QString.replace browser.default_engine.query_url searchTerms text)),
                Call.setFocus]) := by
  by_cases hv : api.isValid (api.fromUserInput text) = true
  · by_cases hs : api.scheme (api.fromUserInput text) = "javascript"
    · exact Or.inl ⟨hv, hs, by rw [returnPressed_script api browser text hv hs]⟩
    · by_cases hh : api.host (api.fromUserInput text) = "localhost"
          ∨ 1 < (QString.split (api.host (api.fromUserInput text)) ".").length
      · exact Or.inr (Or.inl ⟨hv, hs, hh, by rw [returnPressed_navigation api browser text hv hs hh]⟩)
      · have hc : api.isValid (api.fromUserInput text) = false
            ∨ (api.scheme (api.fromUserInput text) ≠ "javascript"
              ∧ api.host (api.fromUserInput text) ≠ "localhost"
              ∧ (QString.split (api.host (api.fromUserInput text)) ".").length ≤ 1) := by
          refine Or.inr ⟨hs, fun e => hh (Or.inl e), ?_⟩
          by_contra hlt
          exact hh (Or.inr (by omega))
        exact Or.inr (Or.inr ⟨hc, by rw [returnPressed_search api browser text hc]⟩)
  · have hc : api.isValid (api.fromUserInput text) = false := by simpa using hv
    exact Or.inr (Or.inr ⟨Or.inl hc, by rw [returnPressed_search api browser text (Or.inl hc)]⟩)

/-! ## Claims on the address-bar submission -/

/-- C1: on submission the tab calls `load` on the parsed URL, without consulting
the search engine, if and only if the user-input parse is valid, its scheme is
not "javascript", and its host is "localhost" or has more than one
dot-separated label (that is, contains a dot).  A host of exactly one label
other than "localhost" is never navigated to directly, while "localhost", which
has a single label, is. -/
theorem C1_direct_navigation_iff {QUrl : Type} (api : QUrlApi QUrl) (browser : Browser) (text : String) :
    ((returnPressed api browser text).2 = [Call.load (api.fromUserInput text)]
      ↔ (api.isValid (api.fromUserInput text) = true
          ∧ api.scheme (api.fromUserInput text) ≠ "javascript"
          ∧ (api.host (api.fromUserInput text) = "localhost"
              ∨ 1 < (QString.split (api.host (api.fromUserInput text)) ".").length)))
    ∧ (classify (returnPressed api browser text).2 = some Action.navigation
      ↔ (api.isValid (api.fromUserInput text) = true
          ∧ api.scheme (api.fromUserInput text) ≠ "javascript"
          ∧ (api.host (api.fromUserInput text) = "localhost"
              ∨ '.' ∈ (api.host (api.fromUserInput text)).data)))
    ∧ (((QString.split (api.host (api.fromUserInput text)) ".").length = 1
          ∧ api.host (api.fromUserInput text) ≠ "localhost")
        → (returnPressed api browser text).2 ≠ [Call.load (api.fromUserInput text)])
    ∧ (QString.split "localhost" ".").length = 1
    ∧ ((api.isValid (api.fromUserInput text) = true
          ∧ api.scheme (api.fromUserInput text) ≠ "javascript"
          ∧ api.host (api.fromUserInput text) = "localhost")
        → (returnPressed api browser text).2 = [Call.load (api.fromUserInput text)]) := by
  have key : (returnPressed api browser text).2 = [Call.load (api.fromUserInput text)]
      ↔ (api.isValid (api.fromUserInput text) = true
          ∧ api.scheme (api.fromUserInput text) ≠ "javascript"
          ∧ (api.host (api.fromUserInput text) = "localhost"
              ∨ 1 < (QString.split (api.host (api.fromUserInput text)) ".").length)) := by
    constructor
    · intro h
      rcases returnPressed_cases api browser text with ⟨_, _, e⟩ | ⟨hv, hs, hh, _⟩ | ⟨_, e⟩
      · rw [e] at h; simp at h
      · exact ⟨hv, hs, hh⟩
      · rw [e] at h; simp at h
    · rintro ⟨hv, hs, hh⟩
      rw [returnPressed_navigation api browser text hv hs hh]
  refine ⟨key, ?_, ?_, by decide, ?_⟩
  · rw [classify_returnPressed, ← QString.split_dot_length_gt_one]
    unfold policyAction
    simp only []
    split_ifs with h1 h2 h3 <;> simp_all
  · rintro ⟨h1, hl⟩ h
    rcases key.mp h with ⟨_, _, hh | hh⟩
    · exact hl hh
    · omega
  · rintro ⟨hv, hs, hl⟩
    exact key.mpr ⟨hv, hs, Or.inl hl⟩

/-- C1, at concrete inputs: "example.com" is loaded directly, the single label
"intranet" is not, "localhost" is. -/
theorem C1_direct_navigation_iff_witness :
    (returnPressed sampleApi sampleBrowser "example.com").2 = [Call.load (sampleFromUserInput "example.com")]
    ∧ (returnPressed sampleApi sampleBrowser "intranet").2 ≠ [Call.load (sampleFromUserInput "intranet")]
    ∧ (returnPressed sampleApi sampleBrowser "localhost").2 = [Call.load (sampleFromUserInput "localhost")] :=
  ⟨(C1_direct_navigation_iff sampleApi sampleBrowser "example.com").1.mpr (by decide),
   (C1_direct_navigation_iff sampleApi sampleBrowser "intranet").2.2.1 (by decide),
   (C1_direct_navigation_iff sampleApi sampleBrowser "localhost").2.2.2.2 (by decide)⟩

/-- C3: for every text that is neither a script directive nor a direct
navigation (the parse is invalid, or the scheme is not "javascript" and the
host is a single label other than "localhost"), the handler returns, and its
calls are exactly: fetch the default engine, load the engine's query template
with every "{searchTerms}" replaced by the text as typed, focus the view.  No
script is run.  On a template with one placeholder the loaded address is the
template's prefix, the unmodified text, and the template's suffix. -/
theorem C3_search_fallthrough {QUrl : Type} (api : QUrlApi QUrl) (browser : Browser) (text : String)
    (h : api.isValid (api.fromUserInput text) = false
      ∨ (api.scheme (api.fromUserInput text) ≠ "javascript"
        ∧ api.host (api.fromUserInput text) ≠ "localhost"
        ∧ (QString.split (api.host (api.fromUserInput text)) ".").length ≤ 1)) :
    returnPressed api browser text
        = (browser, [Call.default_engine,
            Call.load (api.fromQString (QString.replace browser.default_engine.query_url "{searchTerms}" text)),
            Call.setFocus])
    ∧ (∀ code : String, Call.runJavaScript code ∉ (returnPressed api browser text).2)
    ∧ (∀ pre post : String, '{' ∉ pre.data → '{' ∉ post.data →
        browser.default_engine.query_url = pre ++ "{searchTerms}" ++ post →
        (returnPressed api browser text).2
          = [Call.default_engine, Call.load (api.fromQString (pre ++ text ++ post)), Call.setFocus]) := by
  have e := returnPressed_search api browser text h
  refine ⟨e, ?_, ?_⟩
  · intro code; rw [e]; simp
  · intro pre post hpre hpost hq
    rw [e, hq]
    have := QString.replace_single pre post text hpre hpost
    simp only [searchTerms] at this ⊢
    rw [this]

/-- C3, at "search term", whose parse is invalid, with a DuckDuckGo template. -/
theorem C3_search_fallthrough_witness :
    (returnPressed sampleApi sampleBrowser "search term").2
      = [Call.default_engine,
          Call.load (sampleApi.fromQString "https://duckduckgo.com/?q=search term"),
          Call.setFocus] :=
  (C3_search_fallthrough sampleApi sampleBrowser "search term" (Or.inl (by decide))).2.2
    "https://duckduckgo.com/?q=" "" (by decide) (by decide) (by decide)

/-- C5: the action taken on a text (script, direct navigation, search) is the
specification's policy applied to the text: it is the same for any two default
search engines and after any prior submissions.  A submission leaves the
stored default engine, and so its query template, as it was, although a search
rewrites the template in its local copy; submitting the same text twice makes
the same calls both times. -/
theorem C5_deterministic_stateless {QUrl : Type} (api : QUrlApi QUrl) (text : String) :
    (∀ (b1 b2 : Browser) (prior1 prior2 : List String),
        classify (returnPressed api (submitAll api b1 prior1).1 text).2 = some (policyAction api text)
        ∧ classify (returnPressed api (submitAll api b1 prior1).1 text).2
            = classify (returnPressed api (submitAll api b2 prior2).1 text).2)
    ∧ (∀ browser : Browser,
        (returnPressed api browser text).1 = browser
        ∧ (searchFallthrough api browser text).1.default_engine.query_url = browser.default_engine.query_url
        ∧ (searchFallthrough api browser text).2.1.query_url
            = QString.replace browser.default_engine.query_url "{searchTerms}" text)
    ∧ (∀ browser : Browser,
        submitAll api browser [text, text]
          = (browser, [(returnPressed api browser text).2, (returnPressed api browser text).2])) := by
  refine ⟨?_, ?_, ?_⟩
  · intro b1 b2 p1 p2
    rw [classify_returnPressed, classify_returnPressed]
    exact ⟨rfl, rfl⟩
  · intro browser
    exact ⟨returnPressed_state api browser text, rfl, rfl⟩
  · intro browser
    simp [submitAll, returnPressed_state]

/-! ## Bookmark storage -/

theorem DataBase.lookup_addBookmark (db : DataBase) (item : BookmarkItem) :
    (db.addBookmark item).lookup item.address = [item] := by
  simp [DataBase.lookup, DataBase.addBookmark, List.filter_append, List.filter_filter]

theorem DataBase.lookup_length (db : DataBase) (a : String) :
    (db.lookup a).length = (db.rows.map (fun r => r.address)).count a := by
  unfold DataBase.lookup
  rw [List.count_eq_countP, List.countP_map, List.countP_eq_length_filter]
  congr 2

theorem DataBase.addressUnique_iff (db : DataBase) :
    db.AddressUnique ↔ ∀ a : String, (db.lookup a).length ≤ 1 := by
  unfold DataBase.AddressUnique
  rw [List.nodup_iff_count_le_one]
  simp only [DataBase.lookup_length]

theorem DataBase.addBookmark_unique (db : DataBase) (item : BookmarkItem)
    (h : db.AddressUnique) : (db.addBookmark item).AddressUnique := by
  unfold DataBase.AddressUnique DataBase.addBookmark at *
  rw [List.map_append, List.nodup_append]
  refine ⟨List.Nodup.sublist ((List.filter_sublist _).map _) h, by simp, ?_⟩
  intro a ha hb
  simp only [List.map_cons, List.map_nil, List.mem_singleton] at hb
  subst hb
  simp only [List.mem_map, List.mem_filter] at ha
  obtain ⟨r, ⟨_, hr⟩, e⟩ := ha
  simp [e] at hr

theorem DataBase.removeBookmark_unique (db : DataBase) (address : String)
    (h : db.AddressUnique) : (db.removeBookmark address).AddressUnique := by
  unfold DataBase.AddressUnique DataBase.removeBookmark at *
  exact List.Nodup.sublist ((List.filter_sublist _).map _) h

theorem DataBase.updateBookmark_addresses (db : DataBase) (item : BookmarkItem) :
    (db.updateBookmark item).rows.map (fun r => r.address) = db.rows.map (fun r => r.address) := by
  unfold DataBase.updateBookmark
  rw [List.map_map]
  apply List.map_congr_left
  intro r _
  by_cases e : r.address = item.address <;> simp [e]

theorem DataBase.updateBookmark_unique (db : DataBase) (item : BookmarkItem)
    (h : db.AddressUnique) : (db.updateBookmark item).AddressUnique := by
  unfold DataBase.AddressUnique at *
  rw [DataBase.updateBookmark_addresses]
  exact h

theorem DataBase.apply_unique (db : DataBase) (op : DataBase.Op)
    (h : db.AddressUnique) : (db.apply op).AddressUnique := by
  cases op with
  | add item => exact DataBase.addBookmark_unique db item h
  | remove address => exact DataBase.removeBookmark_unique db address h
  | update item => exact DataBase.updateBookmark_unique db item h

theorem DataBase.foldl_unique (ops : List DataBase.Op) (db : DataBase)
    (h : db.AddressUnique) : (ops.foldl DataBase.apply db).AddressUnique := by
  induction ops generalizing db with
  | nil => exact h
  | cons op ops ih => exact ih _ (DataBase.apply_unique db op h)

/-- Every store reached from a fresh database keeps addresses unique. -/
theorem DataBase.run_unique (ops : List DataBase.Op) : (DataBase.run ops).AddressUnique :=
  DataBase.foldl_unique ops DataBase.createTables (by simp [DataBase.AddressUnique, DataBase.createTables])

/-- C6: in every store state, after `addBookmark(b)` the lookup
`isBookmarked(b.address)` returns the record `b` itself (address, title and
folder), the lookup keyed on that address finding exactly this one row; and in
every store reached from a fresh database by additions, removals and updates,
before and after the addition, the lookup keyed on any address finds at most
one row. -/
theorem C6_add_then_isBookmarked (db : DataBase) (b : BookmarkItem) (ops : List DataBase.Op) :
    (db.addBookmark b).isBookmarked b.address = b
    ∧ (db.addBookmark b).lookup b.address = [b]
    ∧ (∀ a : String, ((DataBase.run ops).lookup a).length ≤ 1)
    ∧ (∀ a : String, (((DataBase.run ops).addBookmark b).lookup a).length ≤ 1)
    ∧ (db.AddressUnique → ∀ a : String, ((db.addBookmark b).lookup a).length ≤ 1) := by
  refine ⟨?_, DataBase.lookup_addBookmark db b, ?_, ?_, ?_⟩
  · simp [DataBase.isBookmarked, DataBase.lookup_addBookmark]
  · exact (DataBase.addressUnique_iff _).mp (DataBase.run_unique ops)
  · exact (DataBase.addressUnique_iff _).mp (DataBase.addBookmark_unique _ b (DataBase.run_unique ops))
  · intro h
    exact (DataBase.addressUnique_iff _).mp (DataBase.addBookmark_unique db b h)

theorem DataBase.lookup_update_add (db : DataBase) (item upd : BookmarkItem)
    (h : upd.address = item.address) :
    ((db.addBookmark item).updateBookmark upd).lookup item.address = [upd] := by
  have h1 : List.filter (fun r => decide (r.address = item.address))
      (List.map (fun r => if r.address = upd.address then upd else r)
        (List.filter (fun r => decide (r.address ≠ item.address)) db.rows)) = [] := by
    rw [List.filter_eq_nil_iff]
    intro x hx
    simp only [List.mem_map, List.mem_filter, decide_eq_true_eq] at hx
    obtain ⟨y, ⟨_, hy⟩, e⟩ := hx
    rw [h, if_neg hy] at e
    subst e
    simpa using hy
  simp only [DataBase.lookup, DataBase.updateBookmark, DataBase.addBookmark, List.map_append,
    List.filter_append, h1, List.nil_append, List.map_cons, List.map_nil]
  simp [h]

/-- C7: after a bookmark is added with folder `f1` and then updated, under the
same address, to a different folder `f2` (and any title), `bookmarks(f2)`
contains the updated record, no row of `bookmarks(f1)` has the bookmark's
address, and `isBookmarked` returns the updated record. -/
theorem C7_update_moves_folder (db : DataBase) (item : BookmarkItem) (title2 f2 : String)
    (h : f2 ≠ item.folder) :
    (⟨item.address, title2, f2⟩ : BookmarkItem)
        ∈ ((db.addBookmark item).updateBookmark ⟨item.address, title2, f2⟩).bookmarks f2
    ∧ (∀ r ∈ ((db.addBookmark item).updateBookmark ⟨item.address, title2, f2⟩).bookmarks item.folder,
        r.address ≠ item.address)
    ∧ item ∉ ((db.addBookmark item).updateBookmark ⟨item.address, title2, f2⟩).bookmarks item.folder
    ∧ ((db.addBookmark item).updateBookmark ⟨item.address, title2, f2⟩).isBookmarked item.address
        = ⟨item.address, title2, f2⟩ := by
  have hall : ∀ r ∈ ((db.addBookmark item).updateBookmark ⟨item.address, title2, f2⟩).bookmarks item.folder,
      r.address ≠ item.address := by
    intro r hr
    simp only [DataBase.bookmarks, DataBase.updateBookmark, DataBase.addBookmark, List.mem_filter,
      List.mem_map, decide_eq_true_eq] at hr
    obtain ⟨⟨x, _, hx⟩, hf⟩ := hr
    by_cases e : x.address = item.address
    · rw [if_pos e] at hx
      subst hx
      exact absurd hf h
    · rw [if_neg e] at hx
      subst hx
      exact e
  refine ⟨?_, hall, fun hm => hall item hm rfl, ?_⟩
  · simp [DataBase.bookmarks, DataBase.updateBookmark, DataBase.addBookmark]
  · rw [DataBase.isBookmarked, DataBase.lookup_update_add db item ⟨item.address, title2, f2⟩ rfl]
    rfl

/-- C7, at a store holding another bookmark: "https://b.org" moves from "work" to "home". -/
theorem C7_update_moves_folder_witness :
    (⟨"https://b.org", "B2", "home"⟩ : BookmarkItem)
        ∈ (((DataBase.run [DataBase.Op.add ⟨"https://a.org", "A", "work"⟩]).addBookmark
            ⟨"https://b.org", "B", "work"⟩).updateBookmark ⟨"https://b.org", "B2", "home"⟩).bookmarks "home"
    ∧ (⟨"https://b.org", "B", "work"⟩ : BookmarkItem)
        ∉ (((DataBase.run [DataBase.Op.add ⟨"https://a.org", "A", "work"⟩]).addBookmark
            ⟨"https://b.org", "B", "work"⟩).updateBookmark ⟨"https://b.org", "B2", "home"⟩).bookmarks "work" :=
  ⟨(C7_update_moves_folder (DataBase.run [DataBase.Op.add ⟨"https://a.org", "A", "work"⟩])
      ⟨"https://b.org", "B", "work"⟩ "B2" "home" (by decide)).1,
   (C7_update_moves_folder (DataBase.run [DataBase.Op.add ⟨"https://a.org", "A", "work"⟩])
      ⟨"https://b.org", "B", "work"⟩ "B2" "home" (by decide)).2.2.1⟩

/-! ## Download row -/

/-- With a non-zero total the handler scales, divides and sets the value, or
runs into an overflow. -/
theorem downloadProgress_nonzero (bytes_received bytes_total : Int) (ht : bytes_total ≠ 0) :
    downloadProgress bytes_received bytes_total
      = if inInt64 (bytes_received * 100) then
          if inInt64 (Int.tdiv (bytes_received * 100) bytes_total) then
            Except.ok [ProgressStep.divide (bytes_received * 100) bytes_total,
              ProgressStep.setValue (toInt32 (Int.tdiv (bytes_received * 100) bytes_total))]
          else Except.error ArithFault.overflow
        else Except.error ArithFault.overflow := by
  unfold downloadProgress mul64 div64
  rw [if_neg ht]
  by_cases hm : inInt64 (bytes_received * 100) = true
  · rw [if_pos hm, if_pos hm]
    simp only [if_neg ht]
    by_cases hd : inInt64 (Int.tdiv (bytes_received * 100) bytes_total) = true
    · rw [if_pos hd, if_pos hd]
    · rw [if_neg hd, if_neg hd]
  · rw [if_neg hm, if_neg hm]

/-- C8: on a progress notification with `bytes_total = 0`, whatever
`bytes_received` is, the handler does one thing, `setValue(-1)` on the progress
bar, and performs no division; and for no pair of arguments does the
percentage computation divide by zero. -/
theorem C8_zero_total_no_division (bytes_received : Int) :
    downloadProgress bytes_received 0 = Except.ok [ProgressStep.setValue (-1)]
    ∧ (∀ (steps : List ProgressStep) (n d : Int),
        downloadProgress bytes_received 0 = Except.ok steps → ProgressStep.divide n d ∉ steps)
    ∧ (∀ bytes_total : Int,
        downloadProgress bytes_received bytes_total ≠ Except.error ArithFault.divisionByZero)
    ∧ (∀ (bytes_total : Int) (steps : List ProgressStep) (n d : Int),
        downloadProgress bytes_received bytes_total = Except.ok steps →
        ProgressStep.divide n d ∈ steps → d ≠ 0) := by
  have h0 : downloadProgress bytes_received 0 = Except.ok [ProgressStep.setValue (-1)] := by
    simp [downloadProgress]
  refine ⟨h0, ?_, ?_, ?_⟩
  · intro steps n d hs
    rw [h0] at hs
    cases hs
    simp
  · intro bytes_total
    by_cases ht : bytes_total = 0
    · subst ht
      rw [h0]
      simp
    · rw [downloadProgress_nonzero bytes_received bytes_total ht]
      split_ifs <;> simp
  · intro bytes_total steps n d hs hmem
    by_cases ht : bytes_total = 0
    · subst ht
      rw [h0] at hs
      cases hs
      simp at hmem
    · rw [downloadProgress_nonzero bytes_received bytes_total ht] at hs
      split_ifs at hs
      · simp only [Except.ok.injEq] at hs
        subst hs
        simp only [List.mem_cons, ProgressStep.divide.injEq, List.mem_singleton, reduceCtorEq,
          or_false, List.not_mem_nil] at hmem
        rw [hmem.2]
        exact ht

/-- C9: when the download of a row built by `handle_download` finishes, the
progress bar, the cancel button and the pause button leave the layout and are
deleted, and the layout holds the status label alone.  The label reads
"Downloaded." in state Completed, the cancellation message
("Donwload Cancelled.", as the source spells it) in state Cancelled, the
handle's interrupt reason string in state Interrupted, and stays empty in any
other state. -/
theorem C9_finished_status_label (item : DownloadItem) :
    (finished item handle_download_row).hbox = [Widget.label]
    ∧ (finished item handle_download_row).deleted = [Widget.progress, Widget.cancel, Widget.pause]
    ∧ (finished item handle_download_row).label
        = some (match item.state with
          | DownloadState.DownloadCompleted => "Downloaded."
          | DownloadState.DownloadCancelled => "Donwload Cancelled."
          | DownloadState.DownloadInterrupted => item.interruptReasonString
          | DownloadState.DownloadRequested => ""
          | DownloadState.DownloadInProgress => "")
    ∧ (∀ row : DownloadRow,
        (finished item row).hbox
            = ((row.hbox.erase Widget.progress).erase Widget.cancel).erase Widget.pause ++ [Widget.label]
        ∧ (finished item row).deleted = row.deleted ++ [Widget.progress, Widget.cancel, Widget.pause]) := by
  obtain ⟨state, reason⟩ := item
  cases state <;>
    simp [finished, handle_download_row, DownloadRow.removeWidget, DownloadRow.delete,
      DownloadRow.addWidget, DownloadRow.setLabelText]

/-! ## Private tab address bar -/

theorem tryCatch_returns (body : WindowM Unit) (w : PrivateTabWindow) :
    ((tryCatch body (fun _ => pure ()) : WindowM Unit).run.run w).1 = Except.ok () := by
  simp only [tryCatch, tryCatchThe, MonadExceptOf.tryCatch, ExceptT.tryCatch, ExceptT.run, ExceptT.mk,
    bind, StateT.bind, StateT.run]
  generalize body w = p
  obtain ⟨r, s⟩ := p
  cases r <;> rfl

theorem tryCatch_ok {α : Type} (body : WindowM α) (handler : Failure → WindowM α)
    (w w2 : PrivateTabWindow) (a : α)
    (h : body.run.run w = (Except.ok a, w2)) :
    (tryCatch body handler : WindowM α).run.run w = (Except.ok a, w2) := by
  simp only [tryCatch, tryCatchThe, MonadExceptOf.tryCatch, ExceptT.tryCatch, ExceptT.run, ExceptT.mk,
    bind, StateT.bind, StateT.run] at h ⊢
  rw [h]
  rfl

theorem bind_ok {α β : Type} (x : WindowM α) (f : α → WindowM β)
    (w w2 : PrivateTabWindow) (a : α)
    (h : x.run.run w = (Except.ok a, w2)) :
    (x >>= f).run.run w = (f a).run.run w2 := by
  simp only [ExceptT.run, ExceptT.mk, bind, ExceptT.bind, StateT.bind, StateT.run] at h ⊢
  rw [h]
  rfl

theorem toolkitCall_ok {α : Type} (effect : PrivateTabWindow → α × PrivateTabWindow)
    (w : PrivateTabWindow) (h : w.faults w.calls = none) :
    (toolkitCall effect).run.run w
      = (Except.ok (effect { w with calls := w.calls + 1 }).1, (effect { w with calls := w.calls + 1 }).2) := by
  simp [toolkitCall, ExceptT.run, StateT.run, bind, ExceptT.bind, ExceptT.mk, StateT.bind, get, getThe,
    MonadStateOf.get, liftM, monadLift, MonadLift.monadLift, ExceptT.lift, StateT.get, pure, StateT.pure,
    ExceptT.bindCont, set, StateT.set, StateT.map, Functor.map, h, ExceptT.pure]

theorem addrBarInitialize_ok (w : PrivateTabWindow) (h : w.faults w.calls = none) :
    addrBarInitialize.run.run w = (Except.ok (), { w with calls := w.calls + 1 }) :=
  toolkitCall_ok _ w h

theorem viewUrlToString_ok (w : PrivateTabWindow) (h : w.faults w.calls = none) :
    viewUrlToString.run.run w = (Except.ok w.viewUrl, { w with calls := w.calls + 1 }) :=
  toolkitCall_ok _ w h

theorem setText_ok (text : String) (w : PrivateTabWindow) (h : w.faults w.calls = none) :
    (setText text).run.run w
      = (Except.ok (), { w with calls := w.calls + 1,
                                addr_bar := { text := text, cursorPosition := text.length } }) :=
  toolkitCall_ok _ w h

theorem setCursorPosition_ok (pos : Nat) (w : PrivateTabWindow) (h : w.faults w.calls = none) :
    (setCursorPosition pos).run.run w
      = (Except.ok (), { w with calls := w.calls + 1,
                                addr_bar := { w.addr_bar with cursorPosition := pos } }) :=
  toolkitCall_ok _ w h

/-- C10: in every state of the window, whichever of the calls made by
`updateAddrBar` raise a failure, `updateAddrBar` returns normally and no failure
reaches its caller; when none of its five calls fails, the address field's text
is the view's current URL string and the cursor position is 0. -/
theorem C10_updateAddrBar_best_effort (w : PrivateTabWindow) :
    (updateAddrBar.run.run w).1 = Except.ok ()
    ∧ ((∀ k : Nat, k < 5 → w.faults (w.calls + k) = none) →
        (updateAddrBar.run.run w).2.addr_bar = { text := w.viewUrl, cursorPosition := 0 }) := by
  refine ⟨tryCatch_returns _ w, ?_⟩
  intro h
  have h0 := h 0 (by decide)
  have h1 := h 1 (by decide)
  have h2 := h 2 (by decide)
  have h3 := h 3 (by decide)
  have h4 := h 4 (by decide)
  simp only [Nat.add_zero] at h0
  unfold updateAddrBar
  rw [tryCatch_ok _ _ w
    { w with calls := w.calls + 5, addr_bar := { text := w.viewUrl, cursorPosition := 0 } } ()]
  rw [bind_ok _ _ _ _ _ (addrBarInitialize_ok w h0)]
  rw [bind_ok _ _ _ _ _ (viewUrlToString_ok _ h1)]
  rw [bind_ok _ _ _ _ _ (setText_ok _ _ h2)]
  rw [bind_ok _ _ _ _ _ (addrBarInitialize_ok _ h3)]
  rw [setCursorPosition_ok _ _ h4]

/-- C10, at a window whose every call fails (the function still returns) and at
one where none does (the field shows the view's URL, cursor at 0). -/
theorem C10_updateAddrBar_best_effort_witness :
    (updateAddrBar.run.run
        { viewUrl := "https://a.org", addr_bar := ⟨"old", 3⟩, faults := fun _ => some ⟨"invalid"⟩, calls := 0 }).1
      = Except.ok ()
    ∧ (updateAddrBar.run.run
        { viewUrl := "https://a.org", addr_bar := ⟨"old", 3⟩, faults := fun _ => none, calls := 0 }).2.addr_bar
      = { text := "https://a.org", cursorPosition := 0 } :=
  ⟨(C10_updateAddrBar_best_effort _).1, (C10_updateAddrBar_best_effort _).2 (fun _ _ => rfl)⟩

/-! ## Download row: percentage -/

theorem toInt32_of_percent (q : Int) (h0 : 0 ≤ q) (h1 : q ≤ 100) : toInt32 q = q := by
  have hmod : q % 2 ^ 32 = q := Int.emod_eq_of_lt h0 (by omega)
  unfold toInt32
  rw [hmod, if_pos (by omega)]

theorem floor_ratio_eq_ediv (a b : Int) (hb : 0 < b) : ⌊(a : ℚ) / (b : ℚ)⌋ = a / b := by
  obtain ⟨n, rfl⟩ := Int.eq_ofNat_of_zero_le hb.le
  exact Rat.floor_intCast_div_natCast a n

theorem percent_bounds (r t : Int) (ht : 0 < t) (hr : 0 ≤ r) (hle : r ≤ t) :
    0 ≤ r * 100 / t ∧ r * 100 / t ≤ 100 ∧ (r * 100 / t = 100 ↔ r = t) := by
  have h0 : 0 ≤ r * 100 / t := Int.ediv_nonneg (by omega) ht.le
  have h1 : r * 100 / t ≤ 100 := Int.ediv_le_of_le_mul ht (by omega)
  refine ⟨h0, h1, ?_, ?_⟩
  · intro h
    have h2 : (100 : Int) ≤ r * 100 / t := by omega
    have h3 := (Int.le_ediv_iff_mul_le ht).mp h2
    omega
  · intro h
    subst h
    rw [Int.mul_comm]
    exact Int.mul_ediv_cancel 100 (by omega)

/-- C11: on a progress notification with `bytes_total > 0`,
`0 <= bytes_received <= bytes_total` and `bytes_received * 100` within the
signed 64-bit range, the handler divides `bytes_received * 100` by
`bytes_total` and passes to `setValue` the floor of
`bytes_received * 100 / bytes_total`; this value lies within the bar's range
0..100 and is 100 exactly when `bytes_received = bytes_total`. -/
theorem C11_progress_percentage (bytes_received bytes_total : Int)
    (ht : 0 < bytes_total) (hr : 0 ≤ bytes_received) (hle : bytes_received ≤ bytes_total)
    (hm : inInt64 (bytes_received * 100) = true) :
    downloadProgress bytes_received bytes_total
        = Except.ok [ProgressStep.divide (bytes_received * 100) bytes_total,
            ProgressStep.setValue ⌊((bytes_received * 100 : Int) : ℚ) / (bytes_total : ℚ)⌋]
    ∧ ⌊((bytes_received * 100 : Int) : ℚ) / (bytes_total : ℚ)⌋ = bytes_received * 100 / bytes_total
    ∧ progressRange.1 ≤ ⌊((bytes_received * 100 : Int) : ℚ) / (bytes_total : ℚ)⌋
    ∧ ⌊((bytes_received * 100 : Int) : ℚ) / (bytes_total : ℚ)⌋ ≤ progressRange.2
    ∧ (⌊((bytes_received * 100 : Int) : ℚ) / (bytes_total : ℚ)⌋ = 100 ↔ bytes_received = bytes_total) := by
  obtain ⟨h0, h1, h100⟩ := percent_bounds bytes_received bytes_total ht hr hle
  have hfloor := floor_ratio_eq_ediv (bytes_received * 100) bytes_total ht
  have htdiv : Int.tdiv (bytes_received * 100) bytes_total = bytes_received * 100 / bytes_total :=
    Int.tdiv_eq_ediv (by omega) ht.le
  have hq : inInt64 (bytes_received * 100 / bytes_total) = true := by
    simp only [inInt64, Bool.and_eq_true, decide_eq_true_eq]
    constructor <;> omega
  rw [hfloor]
  refine ⟨?_, rfl, h0, h1, h100⟩
  rw [downloadProgress_nonzero bytes_received bytes_total (by omega), if_pos hm, htdiv, if_pos hq,
    toInt32_of_percent _ h0 h1]

/-- C11, at 999 of 1000 bytes (99, not yet 100) and at 1000 of 1000 bytes (100). -/
theorem C11_progress_percentage_witness :
    downloadProgress 999 1000
        = Except.ok [ProgressStep.divide (999 * 100) 1000,
            ProgressStep.setValue ⌊((999 * 100 : Int) : ℚ) / ((1000 : Int) : ℚ)⌋]
    ∧ (⌊((999 * 100 : Int) : ℚ) / ((1000 : Int) : ℚ)⌋ = 100 ↔ (999 : Int) = 1000)
    ∧ (⌊((1000 * 100 : Int) : ℚ) / ((1000 : Int) : ℚ)⌋ = 100 ↔ (1000 : Int) = 1000) :=
  ⟨(C11_progress_percentage 999 1000 (by decide) (by decide) (by decide) (by decide)).1,
   (C11_progress_percentage 999 1000 (by decide) (by decide) (by decide) (by decide)).2.2.2.2,
   (C11_progress_percentage 1000 1000 (by decide) (by decide) (by decide) (by decide)).2.2.2.2⟩

/-! ## Refresh/stop button -/

theorem toolbarAfter_append_one {QIcon : Type} (api : QIconApi QIcon) (events : List ToolbarEvent)
    (ev : ToolbarEvent) :
    toolbarAfter api (events ++ [ev]) = (toolbarStep api (toolbarAfter api events) ev).1 := by
  simp [toolbarAfter, List.foldl_append]

theorem loadInProgress_append_one (events : List ToolbarEvent) (ev : ToolbarEvent) :
    loadInProgress (events ++ [ev])
      = match ev with
        | ToolbarEvent.loadStarted => true
        | ToolbarEvent.loadFinished _ _ => false
        | ToolbarEvent.refreshClicked => loadInProgress events := by
  cases ev <;> simp [loadInProgress, List.filter_append, ToolbarEvent.isLoadEvent]

/-- The refresh icon is always the theme icon named after the load state. -/
theorem toolbarAfter_refresh_icon {QIcon : Type} (api : QIconApi QIcon) (events : List ToolbarEvent) :
    (toolbarAfter api events).refresh_icon
      = api.fromTheme (if loadInProgress events then "process-stop" else "view-refresh") := by
  induction events using List.reverseRecOn with
  | nil => rfl
  | append_singleton events ev ih =>
    rw [toolbarAfter_append_one, loadInProgress_append_one]
    cases ev with
    | loadStarted => rfl
    | loadFinished b f => rfl
    | refreshClicked => exact ih

theorem toolbarTrace_at {QIcon : Type} (api : QIconApi QIcon) (tb : Toolbar QIcon)
    (before later : List ToolbarEvent) (ev : ToolbarEvent) :
    (toolbarTrace api tb (before ++ ev :: later))[before.length]?
      = some (toolbarStep api (before.foldl (fun tb ev => (toolbarStep api tb ev).1) tb) ev).2 := by
  induction before generalizing tb with
  | nil => simp [toolbarTrace]
  | cons b before ih => simpa [toolbarTrace] using ih (toolbarStep api tb b).1

/-- C12: with theme icons that report the name they were created from, starting
from the toolbar `setup_toolbar` builds (refresh icon "view-refresh") and after
every sequence of `loadStarted`, `loadFinished` and click events, the refresh
button's icon name is "process-stop" if the most recent load event is
`loadStarted` and "view-refresh" otherwise, and a click on the button calls
`stop` on the web view if and only if the most recent load event is
`loadStarted`, and calls `reload` otherwise. -/
theorem C12_refresh_stop_button {QIcon : Type} (api : QIconApi QIcon)
    (hrefresh : api.name (api.fromTheme "view-refresh") = "view-refresh")
    (hstop : api.name (api.fromTheme "process-stop") = "process-stop")
    (events : List ToolbarEvent) :
    api.name (setup_toolbar api).refresh_icon = "view-refresh"
    ∧ api.name (toolbarAfter api events).refresh_icon
        = (if loadInProgress events then "process-stop" else "view-refresh")
    ∧ (refreshClicked api (toolbarAfter api events) = [WebViewCall.stop]
        ↔ loadInProgress events = true)
    ∧ (refreshClicked api (toolbarAfter api events) = [WebViewCall.reload]
        ↔ loadInProgress events = false)
    ∧ (∀ later : List ToolbarEvent,
        (toolbarTrace api (setup_toolbar api) (events ++ ToolbarEvent.refreshClicked :: later))[events.length]?
          = some (if loadInProgress events then [WebViewCall.stop] else [WebViewCall.reload])) := by
  have hname : api.name (toolbarAfter api events).refresh_icon
      = (if loadInProgress events then "process-stop" else "view-refresh") := by
    rw [toolbarAfter_refresh_icon]
    cases loadInProgress events
    · simpa using hrefresh
    · simpa using hstop
  have hclick : refreshClicked api (toolbarAfter api events)
      = (if loadInProgress events then [WebViewCall.stop] else [WebViewCall.reload]) := by
    unfold refreshClicked
    simp only [hname]
    cases loadInProgress events
    · simp
    · have hne : ("process-stop" : String) ≠ "view-refresh" := by decide
      simp [hne]
  refine ⟨hrefresh, hname, ?_, ?_, ?_⟩
  · rw [hclick]
    cases loadInProgress events <;> simp
  · rw [hclick]
    cases loadInProgress events <;> simp
  · intro later
    rw [toolbarTrace_at, ← hclick]
    rfl

/-- C12, with icons that are their theme name: a click before any load reloads,
a click after a load started stops, a click after it finished reloads again. -/
theorem C12_refresh_stop_button_witness :
    refreshClicked sampleIconApi (toolbarAfter sampleIconApi []) = [WebViewCall.reload]
    ∧ refreshClicked sampleIconApi
        (toolbarAfter sampleIconApi [ToolbarEvent.loadStarted, ToolbarEvent.refreshClicked])
      = [WebViewCall.stop]
    ∧ sampleIconApi.name
        (toolbarAfter sampleIconApi [ToolbarEvent.loadStarted, ToolbarEvent.loadFinished true false]).refresh_icon
      = "view-refresh" :=
  ⟨(C12_refresh_stop_button sampleIconApi rfl rfl []).2.2.2.1.mpr (by decide),
   (C12_refresh_stop_button sampleIconApi rfl rfl
      [ToolbarEvent.loadStarted, ToolbarEvent.refreshClicked]).2.2.1.mpr (by decide),
   (C12_refresh_stop_button sampleIconApi rfl rfl
      [ToolbarEvent.loadStarted, ToolbarEvent.loadFinished true false]).2.1⟩

/-! ## Manager tab pages -/

theorem ManagerTab.setCurrentIndex_pages (t : ManagerTab) (index : Int) :
    (t.setCurrentIndex index).pages = t.pages := by
  unfold ManagerTab.setCurrentIndex
  split_ifs <;> rfl

theorem ManagerTab.openPage_pages {QIcon : Type} (api : QIconApi QIcon) (t : ManagerTab) (p : Page) :
    (ManagerTab.openPage api t p).1.pages = t.pages := by
  cases p <;> exact ManagerTab.setCurrentIndex_pages t _

/-- Opening pages never changes which pages the stacked widget holds. -/
theorem ManagerTab.afterOpening_pages {QIcon : Type} (api : QIconApi QIcon) (opened : List Page) :
    (ManagerTab.afterOpening api opened).pages
      = [Page.settings, Page.history, Page.bookmarks, Page.search] := by
  induction opened using List.reverseRecOn with
  | nil => rfl
  | append_singleton opened p ih =>
    simp only [ManagerTab.afterOpening, List.foldl_append, List.foldl_cons, List.foldl_nil] at ih ⊢
    rw [ManagerTab.openPage_pages, ih]

theorem ManagerTab.currentWidget_setCurrentIndex (t : ManagerTab)
    (h : t.pages = [Page.settings, Page.history, Page.bookmarks, Page.search]) :
    (t.setCurrentIndex 0).currentWidget = some Page.settings
    ∧ (t.setCurrentIndex 1).currentWidget = some Page.history
    ∧ (t.setCurrentIndex 2).currentWidget = some Page.bookmarks
    ∧ (t.setCurrentIndex 3).currentWidget = some Page.search := by
  obtain ⟨pages, cur⟩ := t
  simp only at h
  subst h
  simp [ManagerTab.setCurrentIndex, ManagerTab.currentWidget, ManagerTab.widget]

/-- C13: a newly constructed manager tab holds the pages settings, history,
bookmarks, search at indices 0, 1, 2, 3, and on a new tab as after any sequence
of slot calls, `open_settings`, `open_history`, `open_bookmarks` and
`open_search` each make the page of their own kind current and emit
`title_changed` with "Settings", "History", "Bookmarks", "Search" in turn,
followed by `icon_changed`. -/
theorem C13_manager_page_routing {QIcon : Type} (api : QIconApi QIcon) (opened : List Page) :
    ManagerTab.create.pages = [Page.settings, Page.history, Page.bookmarks, Page.search]
    ∧ (ManagerTab.create.widget 0 = some Page.settings
        ∧ ManagerTab.create.widget 1 = some Page.history
        ∧ ManagerTab.create.widget 2 = some Page.bookmarks
        ∧ ManagerTab.create.widget 3 = some Page.search)
    ∧ ((ManagerTab.open_settings api (ManagerTab.afterOpening api opened)).1.currentWidget = some Page.settings
        ∧ (ManagerTab.open_history api (ManagerTab.afterOpening api opened)).1.currentWidget = some Page.history
        ∧ (ManagerTab.open_bookmarks api (ManagerTab.afterOpening api opened)).1.currentWidget
            = some Page.bookmarks
        ∧ (ManagerTab.open_search api (ManagerTab.afterOpening api opened)).1.currentWidget = some Page.search)
    ∧ ((ManagerTab.open_settings api (ManagerTab.afterOpening api opened)).2
          = [TabSignal.title_changed "Settings", TabSignal.icon_changed (api.fromTheme "configure")]
        ∧ (ManagerTab.open_history api (ManagerTab.afterOpening api opened)).2
          = [TabSignal.title_changed "History", TabSignal.icon_changed (api.fromTheme "appointment-new")]
        ∧ (ManagerTab.open_bookmarks api (ManagerTab.afterOpening api opened)).2
          = [TabSignal.title_changed "Bookmarks", TabSignal.icon_changed (api.fromTheme "bookmark-new")]
        ∧ (ManagerTab.open_search api (ManagerTab.afterOpening api opened)).2
          = [TabSignal.title_changed "Search", TabSignal.icon_changed (api.fromTheme "edit-find")]) := by
  refine ⟨rfl, ⟨rfl, rfl, rfl, rfl⟩, ?_, ⟨rfl, rfl, rfl, rfl⟩⟩
  exact ManagerTab.currentWidget_setCurrentIndex _ (ManagerTab.afterOpening_pages api opened)

/-! ## Download row: pause button -/

theorem pauseClicked_paused {Item : Type} (api : DownloadApi Item) (s : PauseButton Item)
    (h : api.isPaused s.item = true) :
    pauseClicked api s
      = ({ item := api.resume s.item, text := "Pause" }, [PauseCall.resume, PauseCall.setText "Pause"]) := by
  simp [pauseClicked, h]

theorem pauseClicked_running {Item : Type} (api : DownloadApi Item) (s : PauseButton Item)
    (h : api.isPaused s.item = false) :
    pauseClicked api s
      = ({ item := api.pause s.item, text := "Resume" }, [PauseCall.pause, PauseCall.setText "Resume"]) := by
  simp [pauseClicked, h]

/-- After a click the button's text tells the paused state, whatever it was before. -/
theorem pauseClicked_text {Item : Type} (api : DownloadApi Item)
    (hpause : ∀ i : Item, api.isPaused (api.pause i) = true)
    (hresume : ∀ i : Item, api.isPaused (api.resume i) = false)
    (s : PauseButton Item) :
    (pauseClicked api s).1.text
      = (if api.isPaused (pauseClicked api s).1.item then "Resume" else "Pause") := by
  cases h : api.isPaused s.item
  · simp [pauseClicked, h, hpause]
  · simp [pauseClicked, h, hresume]

/-- The button's text follows the paused state after any number of clicks. -/
theorem pauseClicks_text {Item : Type} (api : DownloadApi Item)
    (hpause : ∀ i : Item, api.isPaused (api.pause i) = true)
    (hresume : ∀ i : Item, api.isPaused (api.resume i) = false)
    (item : Item) (h0 : api.isPaused item = false) (n : Nat) :
    (pauseClicks api n (pauseButtonCreated item)).text
      = (if api.isPaused (pauseClicks api n (pauseButtonCreated item)).item then "Resume" else "Pause") := by
  cases n with
  | zero => simp [pauseClicks, pauseButtonCreated, h0]
  | succ n => exact pauseClicked_text api hpause hresume _

/-- A click flips the paused state. -/
theorem pauseClicked_flips {Item : Type} (api : DownloadApi Item)
    (hpause : ∀ i : Item, api.isPaused (api.pause i) = true)
    (hresume : ∀ i : Item, api.isPaused (api.resume i) = false)
    (s : PauseButton Item) :
    api.isPaused (pauseClicked api s).1.item = !api.isPaused s.item := by
  cases h : api.isPaused s.item
  · simp [pauseClicked, h, hpause]
  · simp [pauseClicked, h, hresume]

/-- C14: each click on the pause button calls `resume` and sets the text to
"Pause" if the download is paused, and otherwise calls `pause` and sets the
text to "Resume".  Hence, when `pause()` leaves the download paused and
`resume()` leaves it not paused, for a download that starts unpaused: after any
number of clicks the button's text is "Resume" if and only if the download is
paused, and two further clicks restore the paused state and the text. -/
theorem C14_pause_button_toggle {Item : Type} (api : DownloadApi Item)
    (hpause : ∀ i : Item, api.isPaused (api.pause i) = true)
    (hresume : ∀ i : Item, api.isPaused (api.resume i) = false)
    (item : Item) (h0 : api.isPaused item = false) (n : Nat) :
    (∀ s : PauseButton Item,
        (api.isPaused s.item = true →
          pauseClicked api s
            = ({ item := api.resume s.item, text := "Pause" },
                [PauseCall.resume, PauseCall.setText "Pause"]))
        ∧ (api.isPaused s.item = false →
          pauseClicked api s
            = ({ item := api.pause s.item, text := "Resume" },
                [PauseCall.pause, PauseCall.setText "Resume"])))
    ∧ ((pauseClicks api n (pauseButtonCreated item)).text = "Resume"
        ↔ api.isPaused (pauseClicks api n (pauseButtonCreated item)).item = true)
    ∧ ((pauseClicks api n (pauseButtonCreated item)).text = "Pause"
        ↔ api.isPaused (pauseClicks api n (pauseButtonCreated item)).item = false)
    ∧ api.isPaused (pauseClicks api (n + 2) (pauseButtonCreated item)).item
        = api.isPaused (pauseClicks api n (pauseButtonCreated item)).item
    ∧ (pauseClicks api (n + 2) (pauseButtonCreated item)).text
        = (pauseClicks api n (pauseButtonCreated item)).text := by
  have htext := pauseClicks_text api hpause hresume item h0
  have hflip : api.isPaused (pauseClicks api (n + 2) (pauseButtonCreated item)).item
      = api.isPaused (pauseClicks api n (pauseButtonCreated item)).item := by
    simp only [pauseClicks]
    rw [pauseClicked_flips api hpause hresume, pauseClicked_flips api hpause hresume, Bool.not_not]
  have hne : ("Pause" : String) ≠ "Resume" := by decide
  refine ⟨fun s => ⟨pauseClicked_paused api s, pauseClicked_running api s⟩, ?_, ?_, hflip, ?_⟩
  · rw [htext n]
    cases api.isPaused (pauseClicks api n (pauseButtonCreated item)).item <;> simp [hne]
  · rw [htext n]
    cases api.isPaused (pauseClicks api n (pauseButtonCreated item)).item <;> simp [hne.symm]
  · rw [htext (n + 2), htext n, hflip]

/-- C14, with a handle that is its paused flag: after three clicks the download
is paused and the button reads "Resume"; after five, the same. -/
theorem C14_pause_button_toggle_witness :
    sampleDownloadApi.isPaused (pauseClicks sampleDownloadApi 3 (pauseButtonCreated false)).item = true
    ∧ (pauseClicks sampleDownloadApi 3 (pauseButtonCreated false)).text = "Resume"
    ∧ (pauseClicks sampleDownloadApi 5 (pauseButtonCreated false)).text
        = (pauseClicks sampleDownloadApi 3 (pauseButtonCreated false)).text :=
  ⟨by decide,
   (C14_pause_button_toggle sampleDownloadApi (fun _ => rfl) (fun _ => rfl) false rfl 3).2.1.mpr (by decide),
   (C14_pause_button_toggle sampleDownloadApi (fun _ => rfl) (fun _ => rfl) false rfl 3).2.2.2.2⟩

end Crusta
